import Mathlib

/-
  Verification development for `src/side_by_side.py`.

  The embedding models the parsing cascade (`parse_survey_file` with its three
  layout strategies) and the comparison engine (the core loop of
  `update_tables`).  Conventions of the model:

  * A spreadsheet/CSV cell is `Cell := Option String`: `none` is a pandas null
    (NaN / blank); `some s` is the cell's textual content.  A decoded file is a
    `Grid := List (List Cell)`; the decoding of bytes into such a grid is the
    external library capability and is not modelled.  Grids coming from the
    decoder are rectangular; an out-of-width access in a data region is
    modelled as a null cell.
  * Python floats are modelled by exact decimal numbers, `Dec` (an integer
    mantissa with a decimal exponent, value `mant / 10 ^ exp`; the rational
    value is `Dec.toRat`).  `pd.to_numeric(s, errors='coerce')` on a string is
    modelled by `parseNum`, a plain decimal-literal parser (optional
    surrounding whitespace, optional sign, digits with an optional fractional
    part); a coercion failure, like a genuine NaN, is `none`.
  * `f"{x:.2f}"` is modelled by `format2` (round half to even at two decimals,
    as float formatting does); Python's `round(x, 2)` is `round2`, returning
    the number of hundredths as an integer (two roundings compare equal iff
    the rounded values compare equal); `round2_eq_roundHalfEven_toRat` below
    proves `round2` equal to the rational-level half-even rounding of
    `toRat * 100`.
  * Python's `str.lower`/`str.strip` are `lowerStr`/`trimStr` (ASCII case
    folding, whitespace trimming).
  * Python exceptions are the inductive `PyErr`, keeping only the kind (the
    message text is irrelevant to the properties proved here):
    `ValueError` for the explicit header-validation raises, `KeyError` for a
    missing canonical column label, `IndexError` for an out-of-bounds `iloc`
    access, and `failedAll` for the final aggregated error of line 113.
-/

namespace SideBySide

abbrev Cell := Option String
abbrev Grid := List (List Cell)

inductive Field
  | MD
  | INC
  | AZ
deriving DecidableEq, Repr, Fintype

inductive PyErr
  | valueError
  | keyError
  | indexError
  | failedAll (e : PyErr)
deriving DecidableEq, Repr

/-- The alias table `COL_MAP` of lines 10-14, in source order. -/
def COL_MAP : List (Field × List String) :=
  [(Field.MD, ["md", "measured depth", "survey depth", "sd", "survey"]),
   (Field.INC, ["inc", "inclination"]),
   (Field.AZ, ["az", "azi", "azimuth", "azm"])]

/-- Model of Python `str.lower` (ASCII case folding). -/
def lowerStr (s : String) : String := String.mk (s.toList.map Char.toLower)

/-- Strip surrounding whitespace from a character list (`str.strip`). -/
def trimL (l : List Char) : List Char :=
  ((l.dropWhile Char.isWhitespace).reverse.dropWhile Char.isWhitespace).reverse

/-- Model of Python `str.strip`. -/
def trimStr (s : String) : String := String.mk (trimL s.toList)

/-- Lines 16-26: lowercase and strip each header text, return the first
canonical key whose alias list contains it, else the null marker. -/
def standardize_headers (headers : List String) : List (Option Field) :=
  headers.map fun h =>
    let x := trimStr (lowerStr h)
    (COL_MAP.find? (fun p => p.2.contains x)).map (·.1)

/-- Python `str(h)` on a cell value: a pandas null prints as "nan". -/
def cellStr : Cell → String
  | none => "nan"
  | some s => s

/-! ### Decimal rendering and parsing (model of `pd.to_numeric` / `"%.2f"`) -/

def digitChar : ℕ → Char
  | 0 => '0'
  | 1 => '1'
  | 2 => '2'
  | 3 => '3'
  | 4 => '4'
  | 5 => '5'
  | 6 => '6'
  | 7 => '7'
  | 8 => '8'
  | _ => '9'

/-- Fuel-driven digit expansion; the fuel only bounds the recursion depth. -/
def natDigitsGo : ℕ → ℕ → List Char
  | 0, _ => []
  | fuel + 1, n =>
    if n < 10 then [digitChar n]
    else natDigitsGo fuel (n / 10) ++ [digitChar (n % 10)]

/-- Decimal digits of `n`, most significant first. -/
def natDigits (n : ℕ) : List Char := natDigitsGo (n + 1) n

/-- Numeric value of a digit string (most significant first). -/
def natOfDigits (l : List Char) : ℕ :=
  l.foldl (fun a c => a * 10 + (c.toNat - 48)) 0

/-- An exact decimal number: the value `mant / 10 ^ exp`.  This represents
the (decimal) numbers flowing through the pipeline exactly. -/
structure Dec where
  mant : ℤ
  exp : ℕ
deriving DecidableEq, Repr

/-- The rational value of an exact decimal. -/
def Dec.toRat (d : Dec) : ℚ := (d.mant : ℚ) / (10 : ℚ) ^ d.exp

/-- Round half to even on ℚ, the rounding used by float formatting and by
Python's `round`. -/
def roundHalfEven (q : ℚ) : ℤ :=
  let f := ⌊q⌋
  let r := q - f
  if r < 1 / 2 then f
  else if 1 / 2 < r then f + 1
  else if f % 2 = 0 then f else f + 1

/-- Python `round(x, 2)`, expressed as the resulting number of hundredths,
computed by integer arithmetic on the exact decimal (`/` and `%` on ℤ are
euclidean division, which for the positive divisor `10 ^ exp` is floor
division); `round2_eq_roundHalfEven_toRat` identifies it with the
rational-level half-even rounding of `toRat * 100`. -/
def round2 (d : Dec) : ℤ :=
  let n := d.mant * 100
  let D : ℤ := (10 : ℤ) ^ d.exp
  let f := n / D
  let r := n % D
  if 2 * r < D then f
  else if D < 2 * r then f + 1
  else if f % 2 = 0 then f else f + 1

/-- Exactly two decimal digits for the fractional part, `k < 100`. -/
def twoDigitsL (k : ℕ) : List Char := [digitChar (k / 10), digitChar (k % 10)]

/-- Model of `f"{x:.2f}"` (lines 41, 86, 110): fixed two decimal places. -/
def format2 (d : Dec) : String :=
  let h := round2 d
  let m := h.natAbs
  let s := String.mk (natDigits (m / 100)) ++ "." ++ String.mk (twoDigitsL (m % 100))
  if h < 0 then "-" ++ s else s

/-- Unsigned decimal literal: digits, optionally followed by '.' and digits;
at least one digit overall. -/
def parseUnsigned (cs : List Char) : Option Dec :=
  let intPart := cs.takeWhile Char.isDigit
  let rest := cs.dropWhile Char.isDigit
  match rest with
  | [] => if intPart.isEmpty then none else some ⟨(natOfDigits intPart : ℤ), 0⟩
  | '.' :: frac =>
    if frac.all Char.isDigit && (!intPart.isEmpty || !frac.isEmpty) then
      some ⟨(natOfDigits intPart : ℤ) * (10 : ℤ) ^ frac.length
        + (natOfDigits frac : ℤ), frac.length⟩
    else none
  | _ => none

/-- Model of `pd.to_numeric(s, errors='coerce')` on a string: `none` is NaN. -/
def parseNum (s : String) : Option Dec :=
  match trimL s.toList with
  | [] => none
  | '-' :: cs => (parseUnsigned cs).map (fun d => ⟨-d.mant, d.exp⟩)
  | '+' :: cs => parseUnsigned cs
  | cs => parseUnsigned cs

/-! ### The parsing cascade (`parse_survey_file`, lines 28-113) -/

/-- One parsed survey row: the three display-formatted field values that the
dataframe holds after the final formatting step of each strategy. -/
structure Row where
  md : String
  inc : String
  az : String
deriving DecidableEq, Repr

abbrev SurveyTable := List Row

/-- Value of the cell at `df.iloc[r, c]`; `none` means the access is out of
bounds (pandas raises `IndexError`). -/
def getCell (df : Grid) (r c : ℕ) : Option Cell :=
  (df.get? r).bind (fun row => row.get? c)

/-- The header cells `df.iloc[r, cols]`; `none` when any access is out of
bounds. -/
def fetchCells (df : Grid) (r : ℕ) : List ℕ → Option (List Cell)
  | [] => some []
  | c :: cols => do
    let x ← getCell df r c
    let xs ← fetchCells df r cols
    pure (x :: xs)

/-- The data region `df.iloc[start:, cols]`.  Grids from the decoder are
rectangular, so a column index beyond a ragged row is modelled as null. -/
def sliceData (df : Grid) (start : ℕ) (cols : List ℕ) : List (List Cell) :=
  (df.drop start).map (fun row => cols.map (fun c => (row.get? c).getD none))

/-- A row kept by `dropna(how='all')`: at least one non-null cell. -/
def notAllNa (r : List Cell) : Bool := !(r.all (· == none))

/-- Numeric coercion of one data row at the three canonical column positions;
`none` when any of the three cells is null or fails `pd.to_numeric`. -/
def rowNum (r : List Cell) (iM iI iA : ℕ) : Option (Dec × Dec × Dec) := do
  let a ← ((r.get? iM).getD none).bind parseNum
  let b ← ((r.get? iI).getD none).bind parseNum
  let c ← ((r.get? iA).getD none).bind parseNum
  pure (a, b, c)

/-- Common tail of every strategy (lines 35-42, 80-87, 104-111): drop
all-blank rows, label the columns with the standardized headers and select
labels MD, INC, AZ (a missing label raises `KeyError`), coerce the three
columns to numbers, drop rows with any missing field, format each field with
two decimals. -/
def postProcess (std : List (Option Field)) (rows0 : List (List Cell)) :
    Except PyErr SurveyTable :=
  let rows := rows0.filter notAllNa
  match std.findIdx? (· == some Field.MD), std.findIdx? (· == some Field.INC),
      std.findIdx? (· == some Field.AZ) with
  | some iM, some iI, some iA =>
    .ok ((rows.filterMap (fun r => rowNum r iM iI iA)).map
      (fun v => ⟨format2 v.1, format2 v.2.1, format2 v.2.2⟩))
  | _, _, _ => .error .keyError

/-- Strategy A's worker `try_parse` (lines 29-42): read the header cells at
the template position, standardize, reject a null resolution, then run the
common tail on the data region. -/
def try_parse (df : Grid) (header_row_idx : ℕ) (header_cols : List ℕ)
    (data_start_row_idx : ℕ) (data_cols : List ℕ) : Except PyErr SurveyTable :=
  match fetchCells df header_row_idx header_cols with
  | none => .error .indexError
  | some headerCells =>
    if (standardize_headers (headerCells.map cellStr)).contains none then
      .error .valueError
    else
      postProcess (standardize_headers (headerCells.map cellStr))
        (sliceData df data_start_row_idx data_cols)

/-- Line 69: `df.iloc[i].astype(str).str.lower()` — the whole row as
lowercased strings (no stripping). -/
def rowLower (df : Grid) (i : ℕ) : List String :=
  ((df.get? i).getD []).map (fun c => lowerStr (cellStr c))

/-- Line 70: the row qualifies as header row when every canonical category
has at least one cell equal to one of its aliases. -/
def rowMatches (row : List String) : Bool :=
  COL_MAP.all (fun p => row.any (fun cell => p.2.contains cell))

/-- Line 74's cell test: the cell equals some alias of some category. -/
def cellMatchesAny (cell : String) : Bool :=
  COL_MAP.any (fun p => p.2.contains cell)

/-- Line 74: the ascending column indices whose lowercased cell matches an
alias. -/
def scanCols (df : Grid) (i : ℕ) : List ℕ :=
  ((rowLower df i).enum.filterMap
    (fun jc => if cellMatchesAny jc.2 then some jc.1 else none))

/-- Body of Strategy B once row `i` qualified (lines 72-87): select the
matching columns, standardize their original cells, validate (exactly three
canonical names, none null), then run the common tail from the next row. -/
def scanBody (df : Grid) (i : ℕ) : Except PyErr SurveyTable :=
  if (standardize_headers ((scanCols df i).map
        (fun c => cellStr ((getCell df i c).getD none)))).contains none
      || decide ((standardize_headers ((scanCols df i).map
        (fun c => cellStr ((getCell df i c).getD none)))).length ≠ 3) then
    .error .valueError
  else
    postProcess (standardize_headers ((scanCols df i).map
        (fun c => cellStr ((getCell df i c).getD none))))
      (sliceData df (i + 1) (scanCols df i))

/-- Strategy B's scan loop (lines 68-87), `n` rows left to inspect starting
at row `i`: the first qualifying row is processed (its validation failure
fails the whole strategy); `ok none` when no row qualifies. -/
def scanB (df : Grid) (i : ℕ) : ℕ → Except PyErr (Option SurveyTable)
  | 0 => .ok none
  | n + 1 =>
    if rowMatches (rowLower df i) then (scanBody df i).map some
    else scanB df (i + 1) n

/-- Strategy C, the Well Seeker Pro fallback (lines 92-111): header at row
69 columns 0-2, data at row 71, or 72 when row 71 is not fully numeric. -/
def strategyC (df : Grid) : Except PyErr SurveyTable :=
  match fetchCells df 69 [0, 1, 2] with
  | none => .error .indexError
  | some headerCells =>
    if (standardize_headers (headerCells.map cellStr)).contains none then
      .error .valueError
    else
      match df.get? 71 with
      | none => .error .indexError
      | some row71 =>
        postProcess (standardize_headers (headerCells.map cellStr))
          (sliceData df
            (if (([0, 1, 2].map (fun c => (row71.get? c).getD none)).all
                (fun c => (c.bind parseNum).isSome)) then 71 else 72)
            [0, 1, 2])

/-- The cascade orchestrator (lines 28-113) from the decoded grid on: drop
all-blank rows up front, then Strategy A (template chosen by the source tag),
Strategy B, Strategy C; every strategy failure is caught and falls through
(the blanket `except Exception` of lines 63-64 and 88-89); the terminal
failure wraps Strategy C's error (lines 112-113). -/
def parse_survey_file (df0 : Grid) (survey_type : String) :
    Except PyErr SurveyTable :=
  match (if survey_type == "MWD" then
      try_parse (df0.filter notAllNa) 16 [1, 2, 3] 18 [1, 2, 3]
    else try_parse (df0.filter notAllNa) 54 [0, 1, 2] 56 [0, 1, 2]) with
  | .ok t => .ok t
  | .error _ =>
    match scanB (df0.filter notAllNa) 0 (min 100 (df0.filter notAllNa).length) with
    | .ok (some t) => .ok t
    | _ =>
      match strategyC (df0.filter notAllNa) with
      | .ok t => .ok t
      | .error e => .error (.failedAll e)

/-! ### The comparison engine (core loop of `update_tables`, lines 304-398)

The callback's upload handling and the parse error path (lines 295-302) are
presentation plumbing; the engine below is its comparison section applied to
the two already parsed tables.  The `style_data_conditional` directives keep
only their identifying payload `(row_index, column_id)`; the colour constants
do not enter any property.  The mismatch-table styles of lines 353-371 repeat
the same `(record, column)` information and are not separately modelled. -/

def Row.fieldVal : Row → Field → String
  | r, .MD => r.md
  | r, .INC => r.inc
  | r, .AZ => r.az

/-- Line 320: the field mismatches when either re-parse fails (NaN) or the
two values rounded to two decimals differ. -/
def fieldMismatch (l r : String) : Bool :=
  match parseNum l, parseNum r with
  | some a, some b => decide (round2 a ≠ round2 b)
  | _, _ => true

/-- One record of the mismatched-rows table (lines 343-351): 1-based index
and both sides' three formatted values. -/
structure MRec where
  index : ℕ
  mwd_md : String
  mwd_inc : String
  mwd_az : String
  dd_md : String
  dd_inc : String
  dd_az : String
deriving DecidableEq, Repr

def mkRec (i : ℕ) (a b : Row) : MRec :=
  ⟨i + 1, a.md, a.inc, a.az, b.md, b.inc, b.az⟩

/-- Accumulated outputs of the comparison loop. -/
structure CmpState where
  md : ℕ
  inc : ℕ
  az : ℕ
  rows : ℕ
  styleMwd : List (ℕ × Field)
  styleDd : List (ℕ × Field)
  mismatchRows : List MRec
  mwdCsv : List (List String)
  ddCsv : List (List String)
deriving DecidableEq, Repr

def initState : CmpState := ⟨0, 0, 0, 0, [], [], [], [], []⟩

/-- Line 321: `mismatches[col] += 1`. -/
def CmpState.bump : CmpState → Field → CmpState
  | s, .MD => { s with md := s.md + 1 }
  | s, .INC => { s with inc := s.inc + 1 }
  | s, .AZ => { s with az := s.az + 1 }

/-- Body of the inner `for col in ['MD', 'INC', 'AZ']` loop (lines 317-338);
the accumulator also carries `row_mismatch` and `mismatch_columns`. -/
def fieldStep (a b : Row) (i : ℕ) (acc : CmpState × Bool × List Field)
    (col : Field) : CmpState × Bool × List Field :=
  if fieldMismatch (a.fieldVal col) (b.fieldVal col) then
    let s := acc.1.bump col
    ({ s with styleMwd := s.styleMwd ++ [(i, col)],
              styleDd := s.styleDd ++ [(i, col)] },
     true, acc.2.2 ++ [col])
  else acc

/-- One iteration of the row loop (lines 314-374). -/
def compareRow (a b : Row) (i : ℕ) (s : CmpState) : CmpState :=
  let res := [Field.MD, Field.INC, Field.AZ].foldl (fieldStep a b i) (s, false, [])
  if res.2.1 then
    { res.1 with
      rows := res.1.rows + 1,
      mismatchRows := res.1.mismatchRows ++ [mkRec i a b],
      mwdCsv := res.1.mwdCsv ++ [[a.md, a.inc, a.az]],
      ddCsv := res.1.ddCsv ++ [[b.md, b.inc, b.az]] }
  else res.1

/-- Row `i` of a table, as `df.at[i, col]` reads it (always in bounds in the
loop). -/
def getRow (t : SurveyTable) (i : ℕ) : Row := t.getD i ⟨"", "", ""⟩

structure CmpResult where
  min_len : ℕ
  state : CmpState
  accuracy : ℚ
deriving DecidableEq, Repr

/-- The comparison section of `update_tables` (lines 307-398) on two parsed
tables: loop the compared rows over `range min_len`, then the accuracy of
line 376. -/
def update_tables (mwd_df dd_df : SurveyTable) : CmpResult :=
  let min_len := min mwd_df.length dd_df.length
  let s := (List.range min_len).foldl
    (fun s i => compareRow (getRow mwd_df i) (getRow dd_df i) i s) initState
  { min_len := min_len,
    state := s,
    accuracy :=
      if min_len > 0 then 100 - ((s.rows : ℚ) / (min_len : ℚ) * 100) else 0 }

/-- Field-level mismatch of tables `A`, `B` at row `i`, column `c`. -/
def mis (A B : SurveyTable) (i : ℕ) (c : Field) : Bool :=
  fieldMismatch ((getRow A i).fieldVal c) ((getRow B i).fieldVal c)

/-- The columns that mismatch between rows `a` and `b`, in canonical order. -/
def misCols (a b : Row) : List Field :=
  [Field.MD, Field.INC, Field.AZ].filter
    (fun c => fieldMismatch (a.fieldVal c) (b.fieldVal c))

/-- Row-level mismatch: some field mismatches. -/
def rowMis (a b : Row) : Bool :=
  fieldMismatch a.md b.md || fieldMismatch a.inc b.inc || fieldMismatch a.az b.az

/-- Exchange the MWD and DD sides of a mismatch record. -/
def swapRec (r : MRec) : MRec :=
  ⟨r.index, r.dd_md, r.dd_inc, r.dd_az, r.mwd_md, r.mwd_inc, r.mwd_az⟩

/-! ### Characterization of the comparison loop -/

theorem compareRow_spec (a b : Row) (i : ℕ) (s : CmpState) :
    compareRow a b i s =
      { md := s.md + (if fieldMismatch a.md b.md then 1 else 0),
        inc := s.inc + (if fieldMismatch a.inc b.inc then 1 else 0),
        az := s.az + (if fieldMismatch a.az b.az then 1 else 0),
        rows := s.rows + (if rowMis a b then 1 else 0),
        styleMwd := s.styleMwd ++ (misCols a b).map (fun c => (i, c)),
        styleDd := s.styleDd ++ (misCols a b).map (fun c => (i, c)),
        mismatchRows := s.mismatchRows ++ (if rowMis a b then [mkRec i a b] else []),
        mwdCsv := s.mwdCsv ++ (if rowMis a b then [[a.md, a.inc, a.az]] else []),
        ddCsv := s.ddCsv ++ (if rowMis a b then [[b.md, b.inc, b.az]] else []) } := by
  cases h1 : fieldMismatch a.md b.md <;>
    cases h2 : fieldMismatch a.inc b.inc <;>
      cases h3 : fieldMismatch a.az b.az <;>
        simp [compareRow, fieldStep, rowMis, misCols, CmpState.bump, Row.fieldVal,
          h1, h2, h3]

/-- The comparison loop state in closed form. -/
theorem loop_spec (A B : SurveyTable) (n : ℕ) :
    (List.range n).foldl
        (fun s i => compareRow (getRow A i) (getRow B i) i s) initState =
      { md := (List.range n).countP (fun i => mis A B i Field.MD),
        inc := (List.range n).countP (fun i => mis A B i Field.INC),
        az := (List.range n).countP (fun i => mis A B i Field.AZ),
        rows := (List.range n).countP (fun i => rowMis (getRow A i) (getRow B i)),
        styleMwd := (List.range n).flatMap
          (fun i => (misCols (getRow A i) (getRow B i)).map (fun c => (i, c))),
        styleDd := (List.range n).flatMap
          (fun i => (misCols (getRow A i) (getRow B i)).map (fun c => (i, c))),
        mismatchRows := ((List.range n).filter
            (fun i => rowMis (getRow A i) (getRow B i))).map
          (fun i => mkRec i (getRow A i) (getRow B i)),
        mwdCsv := ((List.range n).filter
            (fun i => rowMis (getRow A i) (getRow B i))).map
          (fun i => [(getRow A i).md, (getRow A i).inc, (getRow A i).az]),
        ddCsv := ((List.range n).filter
            (fun i => rowMis (getRow A i) (getRow B i))).map
          (fun i => [(getRow B i).md, (getRow B i).inc, (getRow B i).az]) } := by
  induction n with
  | zero => simp [initState]
  | succ n ih =>
    rw [List.range_succ, List.foldl_append, ih, List.foldl_cons, List.foldl_nil,
      compareRow_spec]
    refine CmpState.mk.injEq .. ▸ ?_
    simp [mis, List.countP_append, List.flatMap_append, List.filter_append,
      List.countP_cons, List.filter_cons, Row.fieldVal]
    repeat' apply And.intro
    all_goals (split <;> simp)

theorem ut_state (A B : SurveyTable) :
    (update_tables A B).state =
      { md := (List.range (min A.length B.length)).countP (fun i => mis A B i Field.MD),
        inc := (List.range (min A.length B.length)).countP (fun i => mis A B i Field.INC),
        az := (List.range (min A.length B.length)).countP (fun i => mis A B i Field.AZ),
        rows := (List.range (min A.length B.length)).countP
          (fun i => rowMis (getRow A i) (getRow B i)),
        styleMwd := (List.range (min A.length B.length)).flatMap
          (fun i => (misCols (getRow A i) (getRow B i)).map (fun c => (i, c))),
        styleDd := (List.range (min A.length B.length)).flatMap
          (fun i => (misCols (getRow A i) (getRow B i)).map (fun c => (i, c))),
        mismatchRows := ((List.range (min A.length B.length)).filter
            (fun i => rowMis (getRow A i) (getRow B i))).map
          (fun i => mkRec i (getRow A i) (getRow B i)),
        mwdCsv := ((List.range (min A.length B.length)).filter
            (fun i => rowMis (getRow A i) (getRow B i))).map
          (fun i => [(getRow A i).md, (getRow A i).inc, (getRow A i).az]),
        ddCsv := ((List.range (min A.length B.length)).filter
            (fun i => rowMis (getRow A i) (getRow B i))).map
          (fun i => [(getRow B i).md, (getRow B i).inc, (getRow B i).az]) } :=
  loop_spec A B (min A.length B.length)

theorem ut_min_len (A B : SurveyTable) :
    (update_tables A B).min_len = min A.length B.length := rfl

theorem ut_accuracy (A B : SurveyTable) :
    (update_tables A B).accuracy =
      if 0 < min A.length B.length then
        100 - ((update_tables A B).state.rows : ℚ) / ((min A.length B.length : ℕ) : ℚ) * 100
      else 0 := rfl

theorem fieldMismatch_comm (l r : String) : fieldMismatch l r = fieldMismatch r l := by
  unfold fieldMismatch
  cases hl : parseNum l <;> cases hr : parseNum r <;> simp [ne_comm]

theorem mis_comm (A B : SurveyTable) (i : ℕ) (c : Field) :
    mis B A i c = mis A B i c := fieldMismatch_comm ..

theorem rowMis_comm (a b : Row) : rowMis b a = rowMis a b := by
  unfold rowMis
  rw [fieldMismatch_comm, fieldMismatch_comm a.inc, fieldMismatch_comm a.az]

/-! ### Claim theorems for the comparison engine -/

/-- C1: for every compared row index `i < minLen` and every field, the engine
re-parses both sides' formatted strings and the field counts as a mismatch
(highlight directive recorded, per-field counter incremented) exactly when a
side fails to re-parse or the two parsed values rounded to two decimals
differ; a re-parse failure is thereby a recorded finding, and the counters
still range over every compared index, so no row and no comparison is
aborted. -/
theorem C1_field_mismatch_condition (A B : SurveyTable) :
    (∀ l r : String, fieldMismatch l r = true ↔
      ¬ ∃ x y : Dec, parseNum l = some x ∧ parseNum r = some y ∧
        round2 x = round2 y) ∧
    (∀ (i : ℕ) (c : Field), i < min A.length B.length →
      ((i, c) ∈ (update_tables A B).state.styleMwd ↔ mis A B i c = true)) ∧
    (update_tables A B).state.md
      = (List.range (min A.length B.length)).countP (fun i => mis A B i Field.MD) ∧
    (update_tables A B).state.inc
      = (List.range (min A.length B.length)).countP (fun i => mis A B i Field.INC) ∧
    (update_tables A B).state.az
      = (List.range (min A.length B.length)).countP (fun i => mis A B i Field.AZ) := by
  refine ⟨?_, ?_, ?_, ?_, ?_⟩
  · intro l r
    unfold fieldMismatch
    cases hl : parseNum l <;> cases hr : parseNum r <;> simp [hl, hr]
  · intro i c him
    rw [ut_state]
    simp only [List.mem_flatMap, List.mem_range, List.mem_map]
    constructor
    · rintro ⟨j, _, c', hc', heq⟩
      cases heq
      exact (List.mem_filter.mp hc').2
    · intro hmis
      exact ⟨i, him, c, List.mem_filter.mpr ⟨by cases c <;> simp, hmis⟩, rfl⟩
  · rw [ut_state]
  · rw [ut_state]
  · rw [ut_state]

/-- Witness for C1 at concrete tables: the MWD value "100.00" against
"100.01" differ at two decimals, and indeed row 0's MD highlight directive is
present. -/
theorem C1_field_mismatch_condition_witness :
    (0, Field.MD) ∈ (update_tables [⟨"100.00", "1.00", "10.00"⟩]
      [⟨"100.01", "1.00", "10.00"⟩]).state.styleMwd :=
  ((C1_field_mismatch_condition [⟨"100.00", "1.00", "10.00"⟩]
      [⟨"100.01", "1.00", "10.00"⟩]).2.1 0 Field.MD (by decide)).mpr (by decide)

/-- C2: accuracy is `100 * (1 - rows / minLen)` when `minLen > 0`, and is 0
with an empty mismatch list (and no failure, the function being total) when
`minLen = 0`. -/
theorem C2_accuracy_formula (A B : SurveyTable) :
    (0 < min A.length B.length →
      (update_tables A B).accuracy =
        100 * (1 - ((update_tables A B).state.rows : ℚ)
          / ((min A.length B.length : ℕ) : ℚ))) ∧
    (min A.length B.length = 0 →
      (update_tables A B).accuracy = 0 ∧
      (update_tables A B).state.mismatchRows = []) := by
  constructor
  · intro h
    rw [ut_accuracy, if_pos h]
    ring
  · intro h
    refine ⟨by rw [ut_accuracy, if_neg (by omega)], ?_⟩
    rw [ut_state]
    simp [h]

/-- Witness for C2: identical one-row tables give accuracy `100 * (1 - 0/1)`,
and two empty tables give accuracy 0 with an empty mismatch list. -/
theorem C2_accuracy_formula_witness :
    (update_tables [Row.mk "1.00" "2.00" "3.00"] [Row.mk "1.00" "2.00" "3.00"]).accuracy =
      100 * (1 - ((update_tables [Row.mk "1.00" "2.00" "3.00"]
        [Row.mk "1.00" "2.00" "3.00"]).state.rows : ℚ)
        / ((min (List.length [Row.mk "1.00" "2.00" "3.00"])
            (List.length [Row.mk "1.00" "2.00" "3.00"]) : ℕ) : ℚ)) ∧
    (update_tables [] []).accuracy = 0 ∧
    (update_tables [] []).state.mismatchRows = [] :=
  ⟨(C2_accuracy_formula [Row.mk "1.00" "2.00" "3.00"] [Row.mk "1.00" "2.00" "3.00"]).1
      (by decide),
   (C2_accuracy_formula [] []).2 rfl⟩

/-- C5: the comparison examines exactly the rows of index below
`minLen = min lengthA lengthB` — replacing both tables by their first
`minLen` rows changes nothing in the whole result, so trailing rows of the
longer table contribute to no counter — and the reported total (the accuracy
denominator) is `minLen`. -/
theorem C5_truncation (A B : SurveyTable) :
    update_tables A B =
      update_tables (A.take (min A.length B.length))
        (B.take (min A.length B.length)) ∧
    (update_tables A B).min_len = min A.length B.length := by
  refine ⟨?_, rfl⟩
  have hm : min (A.take (min A.length B.length)).length
      (B.take (min A.length B.length)).length = min A.length B.length := by
    simp [List.length_take]
  have hgr : ∀ (T : SurveyTable) (i : ℕ), i < min A.length B.length →
      getRow (T.take (min A.length B.length)) i = getRow T i := by
    intro T i hi
    unfold getRow
    rw [List.getD_eq_getElem?_getD, List.getD_eq_getElem?_getD,
      List.getElem?_take, if_pos hi]
  have hfold : (List.range (min A.length B.length)).foldl
        (fun s i => compareRow (getRow A i) (getRow B i) i s) initState =
      (List.range (min A.length B.length)).foldl
        (fun s i => compareRow (getRow (A.take (min A.length B.length)) i)
          (getRow (B.take (min A.length B.length)) i) i s) initState := by
    apply List.foldl_ext
    intro s i hi
    rw [hgr A i (List.mem_range.mp hi), hgr B i (List.mem_range.mp hi)]
  show CmpResult.mk _ _ _ = CmpResult.mk _ _ _
  simp only [update_tables, hm]
  rw [hfold]

/-- C7: swapping which parsed table is supplied as MWD and which as DD
leaves the total, all four mismatch counters, the accuracy and the highlight
directives unchanged; only the side labeling inside the mismatch records and
the two export lists is exchanged. -/
theorem C7_swap_symmetry (A B : SurveyTable) :
    (update_tables B A).min_len = (update_tables A B).min_len ∧
    (update_tables B A).state.md = (update_tables A B).state.md ∧
    (update_tables B A).state.inc = (update_tables A B).state.inc ∧
    (update_tables B A).state.az = (update_tables A B).state.az ∧
    (update_tables B A).state.rows = (update_tables A B).state.rows ∧
    (update_tables B A).accuracy = (update_tables A B).accuracy ∧
    (update_tables B A).state.styleMwd = (update_tables A B).state.styleMwd ∧
    (update_tables B A).state.styleDd = (update_tables A B).state.styleDd ∧
    (update_tables B A).state.mismatchRows =
      (update_tables A B).state.mismatchRows.map swapRec ∧
    (update_tables B A).state.mwdCsv = (update_tables A B).state.ddCsv ∧
    (update_tables B A).state.ddCsv = (update_tables A B).state.mwdCsv := by
  have hmin : min B.length A.length = min A.length B.length := Nat.min_comm ..
  have hmis : ∀ i c, mis B A i c = mis A B i c := fun i c => mis_comm A B i c
  have hrow : ∀ i, rowMis (getRow B i) (getRow A i)
      = rowMis (getRow A i) (getRow B i) := fun i => rowMis_comm ..
  have hcols : ∀ i, misCols (getRow B i) (getRow A i)
      = misCols (getRow A i) (getRow B i) := by
    intro i
    unfold misCols
    apply List.filter_congr
    intro c _
    exact fieldMismatch_comm ..
  have hmd : (update_tables B A).state.md = (update_tables A B).state.md := by
    rw [ut_state, ut_state]
    simp only [hmin, hmis]
  have hinc : (update_tables B A).state.inc = (update_tables A B).state.inc := by
    rw [ut_state, ut_state]
    simp only [hmin, hmis]
  have haz : (update_tables B A).state.az = (update_tables A B).state.az := by
    rw [ut_state, ut_state]
    simp only [hmin, hmis]
  have hrows : (update_tables B A).state.rows = (update_tables A B).state.rows := by
    rw [ut_state, ut_state]
    simp only [hmin]
    exact List.countP_congr (fun i _ => by rw [hrow])
  have hf : (List.range (min A.length B.length)).filter
        (fun i => rowMis (getRow B i) (getRow A i))
      = (List.range (min A.length B.length)).filter
        (fun i => rowMis (getRow A i) (getRow B i)) :=
    List.filter_congr (fun i _ => by rw [hrow])
  have hstyle : (update_tables B A).state.styleMwd
      = (update_tables A B).state.styleMwd := by
    rw [ut_state, ut_state]
    simp only [hmin]
    exact congrArg _ (funext fun i => by rw [hcols i])
  refine ⟨by rw [ut_min_len, ut_min_len, hmin], hmd, hinc, haz, hrows,
    ?_, hstyle, ?_, ?_, ?_, ?_⟩
  · rw [ut_accuracy, ut_accuracy, hmin, hrows]
  · rw [ut_state, ut_state]
    simp only [hmin]
    exact congrArg _ (funext fun i => by rw [hcols i])
  · rw [ut_state, ut_state]
    simp only [hmin]
    rw [List.map_map, hf]
    rfl
  · rw [ut_state, ut_state]
    simp only [hmin]
    rw [hf]
  · rw [ut_state, ut_state]
    simp only [hmin]
    rw [hf]

/-- C10: each per-field counter and the row counter are at most `minLen`,
and the accuracy always lies in [0, 100]. -/
theorem C10_counters_bounded (A B : SurveyTable) :
    (update_tables A B).state.md ≤ (update_tables A B).min_len ∧
    (update_tables A B).state.inc ≤ (update_tables A B).min_len ∧
    (update_tables A B).state.az ≤ (update_tables A B).min_len ∧
    (update_tables A B).state.rows ≤ (update_tables A B).min_len ∧
    0 ≤ (update_tables A B).accuracy ∧ (update_tables A B).accuracy ≤ 100 := by
  have hb : ∀ p : ℕ → Bool,
      (List.range (min A.length B.length)).countP p ≤ min A.length B.length := by
    intro p
    calc (List.range (min A.length B.length)).countP p
        ≤ (List.range (min A.length B.length)).length := List.countP_le_length p
      _ = min A.length B.length := List.length_range ..
  have hrows : (update_tables A B).state.rows ≤ min A.length B.length := by
    rw [ut_state]
    exact hb _
  refine ⟨by rw [ut_state, ut_min_len]; exact hb _,
    by rw [ut_state, ut_min_len]; exact hb _,
    by rw [ut_state, ut_min_len]; exact hb _,
    by rw [ut_min_len]; exact hrows, ?_, ?_⟩
  · rw [ut_accuracy]
    split
    · rename_i h
      have hm : (0 : ℚ) < ((min A.length B.length : ℕ) : ℚ) := by
        exact_mod_cast h
      have h1 : ((update_tables A B).state.rows : ℚ)
          / ((min A.length B.length : ℕ) : ℚ) ≤ 1 := by
        rw [div_le_one hm]
        exact_mod_cast hrows
      nlinarith
    · norm_num
  · rw [ut_accuracy]
    split
    · rename_i h
      have hm : (0 : ℚ) < ((min A.length B.length : ℕ) : ℚ) := by
        exact_mod_cast h
      have h0 : 0 ≤ ((update_tables A B).state.rows : ℚ)
          / ((min A.length B.length : ℕ) : ℚ) :=
        div_nonneg (by positivity) (le_of_lt hm)
      nlinarith
    · norm_num

/-! ### Digit rendering and the parse/format roundtrip -/

theorem natDigitsGo_congr : ∀ (n f1 f2 : ℕ), n < f1 → n < f2 →
    natDigitsGo f1 n = natDigitsGo f2 n := by
  intro n
  induction n using Nat.strong_induction_on with
  | _ n ih =>
    intro f1 f2 h1 h2
    match f1, f2 with
    | fa + 1, fb + 1 =>
      by_cases h10 : n < 10
      · simp [natDigitsGo, h10]
      · have hlt : n / 10 < n := Nat.div_lt_self (by omega) (by omega)
        simp only [natDigitsGo, if_neg h10]
        rw [ih (n / 10) hlt fa fb (by omega) (by omega)]

theorem natDigits_lt10 (n : ℕ) (h : n < 10) : natDigits n = [digitChar n] := by
  simp [natDigits, natDigitsGo, h]

theorem natDigits_ge10 (n : ℕ) (h : ¬ n < 10) :
    natDigits n = natDigits (n / 10) ++ [digitChar (n % 10)] := by
  have h1 : natDigits n = natDigitsGo n (n / 10) ++ [digitChar (n % 10)] := by
    show natDigitsGo (n + 1) n = _
    simp only [natDigitsGo, if_neg h]
  rw [h1, natDigitsGo_congr (n / 10) n (n / 10 + 1)
    (Nat.div_lt_self (by omega) (by omega)) (by omega)]
  rfl

theorem digitChar_big (n : ℕ) : digitChar (n + 9) = (Char.ofNat 57) := rfl

theorem digitChar_isDigit (d : ℕ) : (digitChar d).isDigit = true := by
  match d with
  | 0 | 1 | 2 | 3 | 4 | 5 | 6 | 7 | 8 => decide
  | n + 9 => rw [digitChar_big]; decide

theorem digitChar_not_ws (d : ℕ) : (digitChar d).isWhitespace = false := by
  match d with
  | 0 | 1 | 2 | 3 | 4 | 5 | 6 | 7 | 8 => decide
  | n + 9 => rw [digitChar_big]; decide

theorem digitChar_ne_dash (d : ℕ) : digitChar d ≠ '-' := by
  match d with
  | 0 | 1 | 2 | 3 | 4 | 5 | 6 | 7 | 8 => decide
  | n + 9 => rw [digitChar_big]; decide

theorem digitChar_ne_plus (d : ℕ) : digitChar d ≠ '+' := by
  match d with
  | 0 | 1 | 2 | 3 | 4 | 5 | 6 | 7 | 8 => decide
  | n + 9 => rw [digitChar_big]; decide

theorem digitChar_val (d : ℕ) (h : d < 10) : (digitChar d).toNat - 48 = d := by
  interval_cases d <;> decide

theorem natDigits_chars (n : ℕ) :
    ∀ c ∈ natDigits n, ∃ d, d < 10 ∧ c = digitChar d := by
  induction n using Nat.strong_induction_on with
  | _ n ih =>
    intro c hc
    by_cases h : n < 10
    · rw [natDigits_lt10 n h] at hc
      simp at hc
      exact ⟨n, h, hc⟩
    · rw [natDigits_ge10 n h] at hc
      rcases List.mem_append.mp hc with h1 | h2
      · exact ih (n / 10) (Nat.div_lt_self (by omega) (by omega)) c h1
      · simp at h2
        exact ⟨n % 10, by omega, h2⟩

theorem natDigits_ne_nil (n : ℕ) : natDigits n ≠ [] := by
  by_cases h : n < 10
  · simp [natDigits_lt10 n h]
  · simp [natDigits_ge10 n h]

theorem natOfDigits_append_one (l : List Char) (c : Char) :
    natOfDigits (l ++ [c]) = natOfDigits l * 10 + (c.toNat - 48) := by
  unfold natOfDigits
  rw [List.foldl_append]
  rfl

theorem natOfDigits_natDigits (n : ℕ) : natOfDigits (natDigits n) = n := by
  induction n using Nat.strong_induction_on with
  | _ n ih =>
    by_cases h : n < 10
    · rw [natDigits_lt10 n h]
      show 0 * 10 + ((digitChar n).toNat - 48) = n
      rw [digitChar_val n h]
      omega
    · rw [natDigits_ge10 n h, natOfDigits_append_one,
        ih (n / 10) (Nat.div_lt_self (by omega) (by omega)),
        digitChar_val (n % 10) (by omega)]
      omega

theorem dropWhile_eq_self_of_all {α : Type} {p : α → Bool} (l : List α)
    (h : ∀ c ∈ l, p c = false) : l.dropWhile p = l := by
  cases l with
  | nil => rfl
  | cons c l => simp [List.dropWhile_cons, h c (List.mem_cons_self c l)]

theorem trimL_eq_self (l : List Char) (h : ∀ c ∈ l, c.isWhitespace = false) :
    trimL l = l := by
  unfold trimL
  rw [dropWhile_eq_self_of_all l h,
    dropWhile_eq_self_of_all l.reverse (fun c hc => h c (List.mem_reverse.mp hc)),
    List.reverse_reverse]

theorem takeWhile_append_all {α : Type} {p : α → Bool} :
    ∀ (l1 l2 : List α), (∀ c ∈ l1, p c = true) →
      (l1 ++ l2).takeWhile p = l1 ++ l2.takeWhile p := by
  intro l1 l2 h
  induction l1 with
  | nil => rfl
  | cons c l ih =>
    rw [List.cons_append, List.takeWhile_cons, if_pos (h c (by simp)), ih (fun x hx => h x (by simp [hx])), List.cons_append]

theorem dropWhile_append_all {α : Type} {p : α → Bool} :
    ∀ (l1 l2 : List α), (∀ c ∈ l1, p c = true) →
      (l1 ++ l2).dropWhile p = l2.dropWhile p := by
  intro l1 l2 h
  induction l1 with
  | nil => rfl
  | cons c l ih =>
    rw [List.cons_append, List.dropWhile_cons, if_pos (h c (by simp)), ih (fun x hx => h x (by simp [hx]))]

theorem roundHalfEven_intCast_div (n D : ℤ) (hD : 0 < D) :
    roundHalfEven ((n : ℚ) / (D : ℚ)) =
      (if 2 * (n % D) < D then n / D
       else if D < 2 * (n % D) then n / D + 1
       else if (n / D) % 2 = 0 then n / D else n / D + 1) := by
  have hDQ : (0 : ℚ) < (D : ℚ) := by exact_mod_cast hD
  have hmod1 : 0 ≤ n % D := Int.emod_nonneg n (ne_of_gt hD)
  have hmod2 : n % D < D := Int.emod_lt_of_pos n hD
  have hsplit : D * (n / D) + n % D = n := Int.ediv_add_emod n D
  have hfl : ⌊(n : ℚ) / (D : ℚ)⌋ = n / D := by
    rw [Int.floor_eq_iff]
    constructor
    · rw [le_div_iff₀ hDQ]
      have hz : (n / D) * D ≤ n := by linarith [mul_comm D (n / D)]
      exact_mod_cast hz
    · rw [div_lt_iff₀ hDQ]
      have hz : n < ((n / D) + 1) * D := by nlinarith [mul_comm D (n / D)]
      exact_mod_cast hz
  have key : (n : ℚ) = (D : ℚ) * ((n / D : ℤ) : ℚ) + ((n % D : ℤ) : ℚ) := by
    exact_mod_cast hsplit.symm
  have hrem : (n : ℚ) / (D : ℚ) - ((n / D : ℤ) : ℚ)
      = ((n % D : ℤ) : ℚ) / (D : ℚ) := by
    rw [eq_div_iff (ne_of_gt hDQ), sub_mul, div_mul_cancel₀ _ (ne_of_gt hDQ)]
    linarith [key]
  have hiff1 : (((n % D : ℤ) : ℚ) / (D : ℚ) < 1 / 2) ↔ (2 * (n % D) < D) := by
    rw [div_lt_div_iff₀ hDQ (by norm_num : (0 : ℚ) < 2)]
    constructor
    · intro hx
      have hc : ((2 * (n % D) : ℤ) : ℚ) < ((D : ℤ) : ℚ) := by push_cast; linarith
      exact_mod_cast hc
    · intro hx
      have hc : ((2 * (n % D) : ℤ) : ℚ) < ((D : ℤ) : ℚ) := by exact_mod_cast hx
      push_cast at hc
      linarith
  have hiff2 : (1 / 2 < ((n % D : ℤ) : ℚ) / (D : ℚ)) ↔ (D < 2 * (n % D)) := by
    rw [div_lt_div_iff₀ (by norm_num : (0 : ℚ) < 2) hDQ]
    constructor
    · intro hx
      have hc : ((D : ℤ) : ℚ) < ((2 * (n % D) : ℤ) : ℚ) := by push_cast; linarith
      exact_mod_cast hc
    · intro hx
      have hc : ((D : ℤ) : ℚ) < ((2 * (n % D) : ℤ) : ℚ) := by exact_mod_cast hx
      push_cast at hc
      linarith
  have hgoal : roundHalfEven ((n : ℚ) / (D : ℚ)) =
      (if (n : ℚ) / (D : ℚ) - (⌊(n : ℚ) / (D : ℚ)⌋ : ℚ) < 1 / 2
        then ⌊(n : ℚ) / (D : ℚ)⌋
        else if 1 / 2 < (n : ℚ) / (D : ℚ) - (⌊(n : ℚ) / (D : ℚ)⌋ : ℚ)
          then ⌊(n : ℚ) / (D : ℚ)⌋ + 1
          else if ⌊(n : ℚ) / (D : ℚ)⌋ % 2 = 0 then ⌊(n : ℚ) / (D : ℚ)⌋
            else ⌊(n : ℚ) / (D : ℚ)⌋ + 1) := rfl
  rw [hgoal, hfl, hrem]
  rcases lt_trichotomy (2 * (n % D)) D with h1 | h1 | h1
  · rw [if_pos (hiff1.mpr h1), if_pos h1]
  · rw [if_neg (by rw [hiff1]; omega), if_neg (by rw [hiff2]; omega),
      if_neg (by omega : ¬ 2 * (n % D) < D), if_neg (by omega : ¬ D < 2 * (n % D))]
  · rw [if_neg (by rw [hiff1]; omega), if_pos (hiff2.mpr h1),
      if_neg (by omega : ¬ 2 * (n % D) < D), if_pos h1]

/-- The integer-arithmetic rounding of the model agrees with the
rational-level half-even rounding of the represented value times 100. -/
theorem round2_eq_roundHalfEven_toRat (d : Dec) :
    round2 d = roundHalfEven (d.toRat * 100) := by
  have hq : d.toRat * 100
      = ((d.mant * 100 : ℤ) : ℚ) / (((10 : ℤ) ^ d.exp : ℤ) : ℚ) := by
    rw [Dec.toRat]
    push_cast
    ring
  rw [hq, roundHalfEven_intCast_div _ _ (pow_pos (by norm_num) _)]
  rfl

theorem round2_hundredths (z : ℤ) : round2 ⟨z, 2⟩ = z := by
  show (if 2 * (z * 100 % (10 : ℤ) ^ 2) < (10 : ℤ) ^ 2 then z * 100 / (10 : ℤ) ^ 2
    else _) = z
  norm_num [Int.mul_emod_left, Int.mul_ediv_cancel]

theorem format2_toList (d : Dec) :
    (format2 d).toList =
      (if round2 d < 0 then ['-'] else []) ++
        (natDigits ((round2 d).natAbs / 100) ++
          '.' :: twoDigitsL ((round2 d).natAbs % 100)) := by
  have hdot : ("." : String).data = ['.'] := rfl
  have hdash : ("-" : String).data = ['-'] := rfl
  unfold format2
  by_cases hneg : round2 d < 0
  · rw [if_pos hneg, if_pos hneg]
    show ("-" ++ (String.mk _ ++ "." ++ String.mk _)).data = _
    simp [String.data_append, hdot, hdash]
  · rw [if_neg hneg, if_neg hneg]
    show (String.mk _ ++ "." ++ String.mk _).data = _
    simp [String.data_append, hdot]

theorem twoDigitsL_all_digit (k : ℕ) : (twoDigitsL k).all Char.isDigit = true := by
  simp [twoDigitsL, digitChar_isDigit]

theorem natOfDigits_twoDigitsL (k : ℕ) (h : k < 100) :
    natOfDigits (twoDigitsL k) = k := by
  show (0 * 10 + ((digitChar (k / 10)).toNat - 48)) * 10
      + ((digitChar (k % 10)).toNat - 48) = k
  rw [digitChar_val (k / 10) (by omega), digitChar_val (k % 10) (by omega)]
  omega

theorem parseUnsigned_digits (M K : ℕ) (hK : K < 100) :
    parseUnsigned (natDigits M ++ '.' :: twoDigitsL K) =
      some ⟨(M : ℤ) * 100 + (K : ℤ), 2⟩ := by
  have hall : ∀ c ∈ natDigits M, Char.isDigit c = true := by
    intro c hc
    obtain ⟨dd, _, rfl⟩ := natDigits_chars M c hc
    exact digitChar_isDigit dd
  have htake : (natDigits M ++ ('.' :: twoDigitsL K)).takeWhile Char.isDigit
      = natDigits M := by
    rw [takeWhile_append_all _ _ hall, List.takeWhile_cons, if_neg (by decide),
      List.append_nil]
  have hdrop : (natDigits M ++ ('.' :: twoDigitsL K)).dropWhile Char.isDigit
      = '.' :: twoDigitsL K := by
    rw [dropWhile_append_all _ _ hall, List.dropWhile_cons, if_neg (by decide)]
  have heq : parseUnsigned (natDigits M ++ '.' :: twoDigitsL K) =
      if (twoDigitsL K).all Char.isDigit
          && (!((natDigits M ++ ('.' :: twoDigitsL K)).takeWhile Char.isDigit).isEmpty
            || !(twoDigitsL K).isEmpty) then
        some ⟨(natOfDigits ((natDigits M ++ ('.' :: twoDigitsL K)).takeWhile
            Char.isDigit) : ℤ) * (10 : ℤ) ^ (twoDigitsL K).length
          + (natOfDigits (twoDigitsL K) : ℤ), (twoDigitsL K).length⟩
      else none := by
    unfold parseUnsigned
    rw [hdrop]
    rfl
  rw [heq, htake, if_pos (by simp [twoDigitsL, digitChar_isDigit])]
  simp only [Option.some.injEq, Dec.mk.injEq]
  constructor
  · rw [natOfDigits_natDigits, natOfDigits_twoDigitsL K hK]
    norm_num [twoDigitsL]
  · rfl

theorem format2_chars_not_ws (d : Dec) :
    ∀ c ∈ (format2 d).toList, c.isWhitespace = false := by
  intro c hc
  rw [format2_toList] at hc
  rcases List.mem_append.mp hc with h1 | h2
  · have : c = '-' := by
      rcases lt_or_le (round2 d) 0 with hx | hx
      · rw [if_pos hx] at h1
        simpa using h1
      · rw [if_neg (by omega)] at h1
        simp at h1
    rw [this]
    decide
  · rcases List.mem_append.mp h2 with h3 | h4
    · obtain ⟨dd, _, rfl⟩ := natDigits_chars _ c h3
      exact digitChar_not_ws dd
    · rcases List.mem_cons.mp h4 with h5 | h6
      · rw [h5]
        decide
      · rcases List.mem_cons.mp h6 with h7 | h8
        · rw [h7]
          exact digitChar_not_ws _
        · rcases List.mem_cons.mp h8 with h9 | h10
          · rw [h9]
            exact digitChar_not_ws _
          · simp at h10

/-- Every value formatted with two decimals re-parses, and it re-parses to
exactly its own hundredths: the stored strings round-trip. -/
theorem parseNum_format2 (d : Dec) :
    parseNum (format2 d) = some ⟨round2 d, 2⟩ := by
  unfold parseNum
  rw [trimL_eq_self _ (format2_chars_not_ws d), format2_toList]
  by_cases hneg : round2 d < 0
  · rw [if_pos hneg]
    show (parseUnsigned (natDigits ((round2 d).natAbs / 100) ++
        '.' :: twoDigitsL ((round2 d).natAbs % 100))).map
        (fun x => (⟨-x.mant, x.exp⟩ : Dec)) = some (⟨round2 d, 2⟩ : Dec)
    rw [parseUnsigned_digits _ _ (by omega)]
    simp only [Option.map, Option.some.injEq, Dec.mk.injEq]
    constructor
    · omega
    · trivial
  · rw [if_neg hneg]
    obtain ⟨c, cs, hS⟩ :=
      List.exists_cons_of_ne_nil (natDigits_ne_nil ((round2 d).natAbs / 100))
    obtain ⟨dd, _, hc⟩ := natDigits_chars _ c (by rw [hS]; exact List.mem_cons_self ..)
    rw [List.nil_append, hS, hc, List.cons_append]
    split
    · rename_i h
      exact absurd h (by simp)
    · rename_i cs2 h
      rw [List.cons.injEq] at h
      exact absurd h.1 (digitChar_ne_dash dd)
    · rename_i cs2 h
      rw [List.cons.injEq] at h
      exact absurd h.1 (digitChar_ne_plus dd)
    · rw [← List.cons_append, ← hc, ← hS, parseUnsigned_digits _ _ (by omega)]
      simp only [Option.some.injEq, Dec.mk.injEq]
      constructor
      · omega
      · trivial

/-! ### Inversion lemmas for the parsing cascade -/

theorem fetchCells_length (df : Grid) (r : ℕ) :
    ∀ (cols : List ℕ) (l : List Cell), fetchCells df r cols = some l →
      l.length = cols.length := by
  intro cols
  induction cols with
  | nil =>
    intro l h
    cases h
    rfl
  | cons c cols ih =>
    intro l h
    unfold fetchCells at h
    cases hx : getCell df r c with
    | none => rw [hx] at h; cases h
    | some x =>
      rw [hx] at h
      cases hxs : fetchCells df r cols with
      | none => rw [hxs] at h; cases h
      | some xs =>
        rw [hxs] at h
        cases h
        simp [ih xs hxs]

theorem findIdx?_mem {α : Type} (p : α → Bool) :
    ∀ (l : List α) (s i : ℕ), List.findIdx? p l s = some i →
      ∃ x ∈ l, p x = true := by
  intro l
  induction l with
  | nil =>
    intro s i h
    simp [List.findIdx?] at h
  | cons a l ih =>
    intro s i h
    rw [List.findIdx?_cons] at h
    by_cases hp : p a
    · exact ⟨a, by simp, hp⟩
    · rw [if_neg hp] at h
      obtain ⟨x, hx, hpx⟩ := ih (s + 1) i h
      exact ⟨x, by simp [hx], hpx⟩

theorem length_filterMap_eq_countP {α β : Type} (f : α → Option β) (l : List α) :
    (l.filterMap f).length = l.countP (fun x => (f x).isSome) := by
  induction l with
  | nil => rfl
  | cons a l ih =>
    rw [List.filterMap_cons, List.countP_cons]
    cases hfa : f a <;> simp [hfa, ih]

theorem postProcess_ok_shape (std : List (Option Field))
    (rows0 : List (List Cell)) (t : SurveyTable)
    (h : postProcess std rows0 = .ok t) :
    ∃ iM iI iA, std.findIdx? (· == some Field.MD) = some iM ∧
      std.findIdx? (· == some Field.INC) = some iI ∧
      std.findIdx? (· == some Field.AZ) = some iA ∧
      t = ((rows0.filter notAllNa).filterMap (fun r => rowNum r iM iI iA)).map
        (fun v => ⟨format2 v.1, format2 v.2.1, format2 v.2.2⟩) := by
  unfold postProcess at h
  split at h
  · rename_i iM iI iA hM hI hA
    cases h
    exact ⟨iM, iI, iA, hM, hI, hA, rfl⟩
  · cases h

theorem postProcess_ok_members (std : List (Option Field))
    (rows0 : List (List Cell)) (t : SurveyTable)
    (h : postProcess std rows0 = .ok t) :
    some Field.MD ∈ std ∧ some Field.INC ∈ std ∧ some Field.AZ ∈ std := by
  obtain ⟨iM, iI, iA, hM, hI, hA, -⟩ := postProcess_ok_shape std rows0 t h
  refine ⟨?_, ?_, ?_⟩
  · obtain ⟨x, hx, hpx⟩ := findIdx?_mem _ std 0 iM hM
    rwa [show x = some Field.MD from by simpa using hpx] at hx
  · obtain ⟨x, hx, hpx⟩ := findIdx?_mem _ std 0 iI hI
    rwa [show x = some Field.INC from by simpa using hpx] at hx
  · obtain ⟨x, hx, hpx⟩ := findIdx?_mem _ std 0 iA hA
    rwa [show x = some Field.AZ from by simpa using hpx] at hx

theorem try_parse_ok (df : Grid) (hr : ℕ) (hcols : List ℕ) (ds : ℕ)
    (dcols : List ℕ) (t : SurveyTable)
    (h : try_parse df hr hcols ds dcols = .ok t) :
    ∃ hc, fetchCells df hr hcols = some hc ∧
      (standardize_headers (hc.map cellStr)).contains none = false ∧
      postProcess (standardize_headers (hc.map cellStr))
        (sliceData df ds dcols) = .ok t := by
  unfold try_parse at h
  split at h
  · cases h
  · rename_i hc hfc
    split at h
    · cases h
    · rename_i hcn
      exact ⟨hc, hfc, by simpa using hcn, h⟩

theorem scanBody_ok (df : Grid) (i : ℕ) (t : SurveyTable)
    (h : scanBody df i = .ok t) :
    (standardize_headers ((scanCols df i).map
        (fun c => cellStr ((getCell df i c).getD none)))).contains none = false ∧
    (standardize_headers ((scanCols df i).map
        (fun c => cellStr ((getCell df i c).getD none)))).length = 3 ∧
    postProcess (standardize_headers ((scanCols df i).map
        (fun c => cellStr ((getCell df i c).getD none))))
      (sliceData df (i + 1) (scanCols df i)) = .ok t := by
  unfold scanBody at h
  split at h
  · cases h
  · rename_i hcond
    rw [Bool.or_eq_true, not_or] at hcond
    refine ⟨by simpa using hcond.1, by simpa using hcond.2, h⟩

theorem scanB_ok (df : Grid) : ∀ (n i : ℕ) (t : SurveyTable),
    scanB df i n = .ok (some t) →
    ∃ j, rowMatches (rowLower df j) = true ∧ scanBody df j = .ok t := by
  intro n
  induction n with
  | zero =>
    intro i t h
    cases h
  | succ n ih =>
    intro i t h
    rw [scanB] at h
    by_cases hq : rowMatches (rowLower df i)
    · rw [if_pos hq] at h
      cases hb : scanBody df i with
      | ok tb =>
        rw [hb] at h
        cases h
        exact ⟨i, hq, hb⟩
      | error e =>
        rw [hb] at h
        cases h
    · rw [if_neg hq] at h
      exact ih (i + 1) t h

theorem strategyC_ok (df : Grid) (t : SurveyTable) (h : strategyC df = .ok t) :
    ∃ hc, fetchCells df 69 [0, 1, 2] = some hc ∧
      (standardize_headers (hc.map cellStr)).contains none = false ∧
      ∃ fdr, postProcess (standardize_headers (hc.map cellStr))
        (sliceData df fdr [0, 1, 2]) = .ok t := by
  unfold strategyC at h
  split at h
  · cases h
  · rename_i hc hfc
    split at h
    · cases h
    · rename_i hcn
      split at h
      · cases h
      · rename_i row71 h71
        exact ⟨hc, hfc, by simpa using hcn, _, h⟩

theorem parse_survey_file_ok (df0 : Grid) (ty : String) (t : SurveyTable)
    (h : parse_survey_file df0 ty = .ok t) :
    (if ty == "MWD" then try_parse (df0.filter notAllNa) 16 [1, 2, 3] 18 [1, 2, 3]
      else try_parse (df0.filter notAllNa) 54 [0, 1, 2] 56 [0, 1, 2]) = .ok t ∨
    scanB (df0.filter notAllNa) 0 (min 100 (df0.filter notAllNa).length)
      = .ok (some t) ∨
    strategyC (df0.filter notAllNa) = .ok t := by
  unfold parse_survey_file at h
  split at h
  · rename_i t0 hA
    cases h
    exact Or.inl hA
  · split at h
    · rename_i t0 hB
      cases h
      exact Or.inr (Or.inl hB)
    · split at h
      · rename_i t0 hC
        cases h
        exact Or.inr (Or.inr hC)
      · cases h

/-- Every row of every successfully parsed table is the two-decimal rendering
of a triple of re-coerced numbers. -/
theorem parsed_rows_shape (df0 : Grid) (ty : String) (t : SurveyTable)
    (h : parse_survey_file df0 ty = .ok t) :
    ∀ r ∈ t, ∃ v : Dec × Dec × Dec,
      r = ⟨format2 v.1, format2 v.2.1, format2 v.2.2⟩ := by
  have hpp : ∀ (std : List (Option Field)) (rows0 : List (List Cell)),
      postProcess std rows0 = .ok t →
      ∀ r ∈ t, ∃ v : Dec × Dec × Dec,
        r = ⟨format2 v.1, format2 v.2.1, format2 v.2.2⟩ := by
    intro std rows0 hp r hr
    obtain ⟨iM, iI, iA, -, -, -, rfl⟩ := postProcess_ok_shape std rows0 t hp
    obtain ⟨v, -, hv⟩ := List.mem_map.mp hr
    exact ⟨v, hv.symm⟩
  rcases parse_survey_file_ok df0 ty t h with hA | hB | hC
  · rcases Bool.eq_false_or_eq_true (ty == "MWD") with hty | hty
    · rw [hty, if_pos rfl] at hA
      obtain ⟨hc, -, -, hp⟩ := try_parse_ok _ _ _ _ _ _ hA
      exact hpp _ _ hp
    · rw [hty, if_neg (by simp)] at hA
      obtain ⟨hc, -, -, hp⟩ := try_parse_ok _ _ _ _ _ _ hA
      exact hpp _ _ hp
  · obtain ⟨j, -, hbody⟩ := scanB_ok _ _ _ _ hB
    obtain ⟨-, -, hp⟩ := scanBody_ok _ _ _ hbody
    exact hpp _ _ hp
  · obtain ⟨hc, -, -, fdr, hp⟩ := strategyC_ok _ _ hC
    exact hpp _ _ hp

theorem format2_ne_empty (d : Dec) : format2 d ≠ "" := by
  intro he
  have h2 := congrArg String.toList he
  rw [format2_toList] at h2
  rcases List.append_eq_nil.mp h2 with ⟨-, h3⟩
  rcases List.append_eq_nil.mp h3 with ⟨h4, -⟩
  exact natDigits_ne_nil _ h4

theorem perm_canonical (l : List (Option Field)) (hlen : l.length = 3)
    (hM : some Field.MD ∈ l) (hI : some Field.INC ∈ l)
    (hA : some Field.AZ ∈ l) :
    l.Perm [some Field.MD, some Field.INC, some Field.AZ] := by
  match l, hlen with
  | [x, y, z], _ =>
    have key : ∀ x y z : Option Field, some Field.MD ∈ [x, y, z] →
        some Field.INC ∈ [x, y, z] → some Field.AZ ∈ [x, y, z] →
        ([x, y, z]).Perm [some Field.MD, some Field.INC, some Field.AZ] := by
      decide
    exact key x y z hM hI hA

/-- C3: in every layout strategy, a successful attempt forces the header
resolution to be exactly the three canonical names with no duplicate and no
unresolved entry (a permutation of `[MD, INC, AZ]`); contrapositively, any
other resolution — a duplicate canonical name, a missing one, or an unmapped
header — yields no `SurveyTable` from that attempt and the cascade falls
through. -/
theorem C3_header_resolution_exact :
    (∀ (df : Grid) (hr : ℕ) (hcols : List ℕ) (ds : ℕ) (dcols : List ℕ)
        (t : SurveyTable), hcols.length = 3 →
      try_parse df hr hcols ds dcols = .ok t →
      ∃ hc, fetchCells df hr hcols = some hc ∧
        (standardize_headers (hc.map cellStr)).Perm
          [some Field.MD, some Field.INC, some Field.AZ]) ∧
    (∀ (df : Grid) (i n : ℕ) (t : SurveyTable), scanB df i n = .ok (some t) →
      ∃ j, rowMatches (rowLower df j) = true ∧
        (standardize_headers ((scanCols df j).map
            (fun c => cellStr ((getCell df j c).getD none)))).Perm
          [some Field.MD, some Field.INC, some Field.AZ]) ∧
    (∀ (df : Grid) (t : SurveyTable), strategyC df = .ok t →
      ∃ hc, fetchCells df 69 [0, 1, 2] = some hc ∧
        (standardize_headers (hc.map cellStr)).Perm
          [some Field.MD, some Field.INC, some Field.AZ]) := by
  refine ⟨?_, ?_, ?_⟩
  · intro df hr hcols ds dcols t hlen h
    obtain ⟨hc, hfc, -, hp⟩ := try_parse_ok _ _ _ _ _ _ h
    obtain ⟨h1, h2, h3⟩ := postProcess_ok_members _ _ _ hp
    refine ⟨hc, hfc, perm_canonical _ ?_ h1 h2 h3⟩
    rw [standardize_headers, List.length_map, List.length_map,
      fetchCells_length df hr hcols hc hfc, hlen]
  · intro df i n t h
    obtain ⟨j, hj, hbody⟩ := scanB_ok df n i t h
    obtain ⟨-, hlen3, hp⟩ := scanBody_ok df j t hbody
    obtain ⟨h1, h2, h3⟩ := postProcess_ok_members _ _ _ hp
    exact ⟨j, hj, perm_canonical _ hlen3 h1 h2 h3⟩
  · intro df t h
    obtain ⟨hc, hfc, -, fdr, hp⟩ := strategyC_ok df t h
    obtain ⟨h1, h2, h3⟩ := postProcess_ok_members _ _ _ hp
    refine ⟨hc, hfc, perm_canonical _ ?_ h1 h2 h3⟩
    rw [standardize_headers, List.length_map, List.length_map,
      fetchCells_length df 69 [0, 1, 2] hc hfc]
    rfl

/-- Witness for C3 at a concrete grid parsed by the Strategy A worker. -/
theorem C3_header_resolution_exact_witness :
    ∃ hc, fetchCells [[some "md", some "inc", some "az"],
        [some "1", some "2", some "3"]] 0 [0, 1, 2] = some hc ∧
      (standardize_headers (hc.map cellStr)).Perm
        [some Field.MD, some Field.INC, some Field.AZ] :=
  C3_header_resolution_exact.1 [[some "md", some "inc", some "az"],
    [some "1", some "2", some "3"]] 0 [0, 1, 2] 1 [0, 1, 2]
    [Row.mk "1.00" "2.00" "3.00"] rfl rfl

/-- C6: a row of any successfully parsed table is present only as the
two-decimal rendering of three successfully coerced numbers — no blank or
missing field ever survives — and the common tail keeps exactly the
non-blank data rows whose three canonical cells all coerce, dropping every
other row entirely. -/
theorem C6_rows_all_numeric :
    (∀ (df0 : Grid) (ty : String) (t : SurveyTable),
      parse_survey_file df0 ty = .ok t →
      ∀ r ∈ t, (∃ v : Dec × Dec × Dec,
          r = ⟨format2 v.1, format2 v.2.1, format2 v.2.2⟩)
        ∧ r.md ≠ "" ∧ r.inc ≠ "" ∧ r.az ≠ "") ∧
    (∀ (std : List (Option Field)) (rows0 : List (List Cell)) (t : SurveyTable),
      postProcess std rows0 = .ok t →
      ∃ iM iI iA, std.findIdx? (· == some Field.MD) = some iM ∧
        std.findIdx? (· == some Field.INC) = some iI ∧
        std.findIdx? (· == some Field.AZ) = some iA ∧
        t.length = (rows0.filter notAllNa).countP
          (fun r => (rowNum r iM iI iA).isSome)) := by
  constructor
  · intro df0 ty t h r hr
    obtain ⟨v, hv⟩ := parsed_rows_shape df0 ty t h r hr
    refine ⟨⟨v, hv⟩, ?_, ?_, ?_⟩ <;> rw [hv] <;> exact format2_ne_empty _
  · intro std rows0 t h
    obtain ⟨iM, iI, iA, hM, hI, hA, rfl⟩ := postProcess_ok_shape std rows0 t h
    exact ⟨iM, iI, iA, hM, hI, hA,
      by rw [List.length_map, length_filterMap_eq_countP]⟩

/-- Witness for C6: a grid whose second data row has a non-numeric AZ cell
parses to a single surviving row. -/
theorem C6_rows_all_numeric_witness :
    ((⟨"1.00", "2.50", "3.00"⟩ : Row) ∈
      ([Row.mk "1.00" "2.50" "3.00"] : SurveyTable) →
      (∃ v : Dec × Dec × Dec, (⟨"1.00", "2.50", "3.00"⟩ : Row)
          = ⟨format2 v.1, format2 v.2.1, format2 v.2.2⟩)
        ∧ ("1.00" : String) ≠ "" ∧ ("2.50" : String) ≠ ""
        ∧ ("3.00" : String) ≠ "") ∧
    (∃ iM iI iA,
      ([some Field.MD, some Field.INC, some Field.AZ] : List (Option Field)).findIdx?
          (· == some Field.MD) = some iM ∧
      ([some Field.MD, some Field.INC, some Field.AZ] : List (Option Field)).findIdx?
          (· == some Field.INC) = some iI ∧
      ([some Field.MD, some Field.INC, some Field.AZ] : List (Option Field)).findIdx?
          (· == some Field.AZ) = some iA ∧
      ([Row.mk "1.00" "2.50" "3.00"] : SurveyTable).length =
        (([[some "1", some "2.5", some "3"], [some "1", some "2.5", some "x"]].filter
            notAllNa).countP (fun r => (rowNum r iM iI iA).isSome))) :=
  ⟨fun hr => C6_rows_all_numeric.1
      [[some "md", some "inc", some "az"], [some "1", some "2.5", some "3"],
        [some "1", some "2.5", some "x"]] "MWD" [Row.mk "1.00" "2.50" "3.00"]
      rfl _ hr,
   C6_rows_all_numeric.2 [some Field.MD, some Field.INC, some Field.AZ]
    [[some "1", some "2.5", some "3"], [some "1", some "2.5", some "x"]]
    [Row.mk "1.00" "2.50" "3.00"] rfl⟩

/-- C9: when both compared tables come from `parse_survey_file`, every stored
field value re-parses successfully during comparison, so the parse-failure
branch of the field-mismatch condition can never fire. -/
theorem C9_reparse_never_fails (dfA : Grid) (tyA : String) (dfB : Grid)
    (tyB : String) (tA tB : SurveyTable)
    (hA : parse_survey_file dfA tyA = .ok tA)
    (hB : parse_survey_file dfB tyB = .ok tB) :
    ∀ (i : ℕ) (c : Field), i < min tA.length tB.length →
      (parseNum ((getRow tA i).fieldVal c)).isSome = true ∧
      (parseNum ((getRow tB i).fieldVal c)).isSome = true := by
  have hmem : ∀ (t : SurveyTable) (i : ℕ), i < t.length → getRow t i ∈ t := by
    intro t i hi
    unfold getRow
    rw [List.getD_eq_getElem?_getD, List.getElem?_eq_getElem hi]
    exact List.getElem_mem ..
  have hfield : ∀ (df0 : Grid) (ty : String) (t : SurveyTable),
      parse_survey_file df0 ty = .ok t → ∀ (i : ℕ) (c : Field), i < t.length →
      (parseNum ((getRow t i).fieldVal c)).isSome = true := by
    intro df0 ty t h i c hi
    obtain ⟨v, hv⟩ := parsed_rows_shape df0 ty t h (getRow t i) (hmem t i hi)
    cases c <;> rw [Row.fieldVal, hv] <;> rw [parseNum_format2] <;> rfl
  intro i c hi
  exact ⟨hfield dfA tyA tA hA i c (by omega), hfield dfB tyB tB hB i c (by omega)⟩

/-- Witness for C9 on two concretely parsed grids. -/
theorem C9_reparse_never_fails_witness :
    (parseNum ((getRow [Row.mk "1.00" "2.50" "3.00"] 0).fieldVal Field.MD)).isSome
        = true ∧
    (parseNum ((getRow [Row.mk "4.00" "5.00" "6.50"] 0).fieldVal Field.MD)).isSome
        = true :=
  C9_reparse_never_fails
    [[some "md", some "inc", some "az"], [some "1", some "2.5", some "3"]] "MWD"
    [[some "md", some "inc", some "az"], [some "4", some "5", some "6.5"]] "DD"
    [Row.mk "1.00" "2.50" "3.00"] [Row.mk "4.00" "5.00" "6.50"] rfl rfl
    0 Field.MD (by decide)

/-- Counterexample to C4 as stated: the HeaderStandardizer resolves
"  Azimuth " (trimming applies there), but Strategy B's keyword scan only
lowercases without trimming, so the very same cell does not match in the
scan: the row never qualifies as a header row and the scan finds nothing. -/
theorem C4_counterexample :
    standardize_headers ["  Azimuth "] = [some Field.AZ] ∧
    rowMatches (rowLower [[some "md", some "inc", some "  Azimuth "],
      [some "1", some "2", some "3"]] 0) = false ∧
    scanB [[some "md", some "inc", some "  Azimuth "], [some "1", some "2", some "3"]]
      0 (min 100 (List.length [[some "md", some "inc", some "  Azimuth "],
        [some "1", some "2", some "3"]])) = .ok none :=
  ⟨rfl, rfl, rfl⟩

/-- C4 as amended: alias matching is case- and whitespace-insensitive in the
HeaderStandardizer — cells equal after lowercasing and trimming resolve
identically, and "  Azimuth " resolves to AZ — while Strategy B's keyword
scan lowercases but does not trim, so the padded cell fails the scan that an
untrimmed-whitespace-free spelling passes. -/
theorem C4_alias_matching_amended :
    (∀ s t : String, trimStr (lowerStr s) = trimStr (lowerStr t) →
      standardize_headers [s] = standardize_headers [t]) ∧
    standardize_headers ["  Azimuth "] = [some Field.AZ] ∧
    rowMatches (rowLower [[some "md", some "inc", some "  Azimuth "]] 0) = false ∧
    rowMatches (rowLower [[some "md", some "inc", some "Azimuth"]] 0) = true := by
  refine ⟨?_, rfl, rfl, rfl⟩
  intro s t h
  simp only [standardize_headers, List.map]
  rw [h]

/-- Witness for C4's amended statement: two spellings of AZ differing only in
case and surrounding whitespace standardize identically. -/
theorem C4_alias_matching_amended_witness :
    standardize_headers ["  AZimuth "] = standardize_headers ["azimuth"] :=
  C4_alias_matching_amended.1 "  AZimuth " "azimuth" rfl

/-- Counterexample to C8 as stated: with this grid, Strategy A raises a
`KeyError` (two header cells resolve to MD, none to AZ, so the canonical
column selection fails) — a programming-error kind, not the distinguished
`ValueError` — yet the orchestrator swallows it and falls through; the final
result is the aggregated wrapper around Strategy C's `IndexError`, not a
propagation of the `KeyError`. -/
theorem C8_counterexample :
    try_parse ((List.replicate 16 [some "x"]
        ++ [[some "r", some "md", some "sd", some "inc"]] : Grid).filter notAllNa)
      16 [1, 2, 3] 18 [1, 2, 3] = .error PyErr.keyError ∧
    parse_survey_file (List.replicate 16 [some "x"]
        ++ [[some "r", some "md", some "sd", some "inc"]]) "MWD"
      = .error (PyErr.failedAll PyErr.indexError) :=
  ⟨rfl, rfl⟩

/-- C8 as amended: the orchestrator catches every error kind raised inside
Strategies A and B (the blanket `except Exception`), so a parse failure only
ever surfaces as the aggregated error wrapping Strategy C's own failure —
errors of the earlier strategies, validation failures and programming errors
alike, never propagate. -/
theorem C8_orchestrator_amended (df0 : Grid) (ty : String) (e : PyErr)
    (h : parse_survey_file df0 ty = .error e) :
    ∃ e2, strategyC (df0.filter notAllNa) = .error e2 ∧ e = .failedAll e2 := by
  unfold parse_survey_file at h
  split at h
  · cases h
  · split at h
    · cases h
    · split at h
      · cases h
      · rename_i e2 hC
        cases h
        exact ⟨e2, hC, rfl⟩

/-- Witness for C8's amended statement on the empty grid. -/
theorem C8_orchestrator_amended_witness :
    ∃ e2, strategyC (([] : Grid).filter notAllNa) = .error e2 ∧
      PyErr.failedAll PyErr.indexError = .failedAll e2 :=
  C8_orchestrator_amended [] "MWD" (PyErr.failedAll PyErr.indexError) rfl

end SideBySide
